import Mathlib

/-!
# Verification of the Universal Hardware Programmer core (src/src/main.cpp)

Shallow embedding of the three protocol engines (parallel NAND, SPI flash,
I2C EEPROM) and of the session-level dispatch of `main.cpp`.

Conventions of the embedding:

* The firmware targets AVR Arduinos (it drives the AVR port registers
  `DDRD`/`PORTD`/`PINB` directly), so the C types have these widths:
  `byte` is 8 bits, `unsigned int` is 16 bits, `unsigned long` is 32 bits.
  Machine integers are modelled as `Nat` with an explicit `% 2^w`
  (`% 256`, `% 65536`, `% 4294967296`) exactly where the C arithmetic
  truncates; where a value provably fits its type no reduction is needed.
  A C expression `(x >> k) & 0xFF` becomes `x / 2^k % 256` of the stored
  (already truncated) value.
* Bus activity is modelled as traces of events: `NandEv` for the six-wire
  parallel bus, `SpiEv` for the chip-select-gated serial channel, `I2cEv`
  for two-wire transactions.  `Serial` printing is presentation only and is
  not part of any trace.
* Payload data is a `List Nat` of byte values; the interactive `writeData`
  handler parses at most 32 bytes (`byte data[32]`), which is reflected as
  `List.take 32` at the dispatch level.
-/

/-! ## SPI flash driver (`spiReadID`, `spiReadData`, `spiWriteData`,
`spiWritePage`, `spiErase`, `spiReadStatus`, `waitForSpiReady`) -/

/-- One event on the SPI channel: chip-select edges and transferred bytes
(`SPI.transfer b`). -/
inductive SpiEv where
  | csLow : SpiEv
  | csHigh : SpiEv
  | xfer : Nat → SpiEv
deriving DecidableEq

/-- `waitForSpiReady` (main.cpp:1182-1190): one READ_STATUS (0x05)
transaction.  It samples the status byte once and returns the WIP bit;
it does not itself loop. -/
def waitForSpiReadyTrace : List SpiEv :=
  [.csLow, .xfer 0x05, .xfer 0x00, .csHigh]

/-- The WIP (bit 0) result `waitForSpiReady` returns for status byte `s`. -/
def waitForSpiReadyBusy (s : Nat) : Bool :=
  s % 2 == 1

/-- A single page-program transaction: the three address bytes placed on the
bus (MSB first, main.cpp:731-734) and the data bytes that follow. -/
structure SpiTxn where
  addrBytes : List Nat
  data : List Nat
deriving DecidableEq

/-- The page-program transaction `spiWritePage` emits for C argument
`address` (a 32-bit `unsigned long`): address bytes
`(address >> 16) & 0xFF, (address >> 8) & 0xFF, address & 0xFF`. -/
def spiProgramTxn (address : Nat) (data : List Nat) : SpiTxn :=
  ⟨[address / 65536 % 256, address / 256 % 256, address % 256], data⟩

/-- `spiWriteData` (main.cpp:698-718) as the list of page-program
transactions it performs, one per `spiWritePage` call.
`offset = address % 256`; the comparison `offset + numBytes > pageSize`
is 16-bit `unsigned int` arithmetic; the second call's address
`address + firstPageBytes` is 32-bit `unsigned long` arithmetic. -/
def spiWriteData (address : Nat) (data : List Nat) : List SpiTxn :=
  let pageSize := 256
  let offset := address % pageSize
  if (offset + data.length) % 65536 > pageSize then
    let firstPageBytes := pageSize - offset
    [spiProgramTxn address (data.take firstPageBytes),
     spiProgramTxn ((address + firstPageBytes) % 4294967296) (data.drop firstPageBytes)]
  else
    [spiProgramTxn address data]

/-- `spiWritePage` (main.cpp:720-747): write-enable pulse, page-program
command 0x02 with address and data, deselect, then a single
`waitForSpiReady()` status read (its Boolean result is discarded by the
caller) before printing "Write complete". -/
def spiWritePage (t : SpiTxn) : List SpiEv :=
  [.csLow, .xfer 0x06, .csHigh, .csLow, .xfer 0x02]
    ++ t.addrBytes.map .xfer ++ t.data.map .xfer ++ [.csHigh]
    ++ waitForSpiReadyTrace

/-- Full SPI bus trace of a `spiWriteData` call: the concatenated traces of
its `spiWritePage` calls.  Note the type: the trace does not depend on any
device state, in particular not on the WIP bit the device reports. -/
def spiWriteDataTrace (address : Nat) (data : List Nat) : List SpiEv :=
  (spiWriteData address data).flatMap spiWritePage

/-- Number of READ_STATUS commands (0x05 bytes) issued in an SPI trace. -/
def spiStatusReadCount (tr : List SpiEv) : Nat :=
  tr.count (.xfer 0x05)

/-- Number of PAGE_PROGRAM commands (0x02 bytes) issued in an SPI trace. -/
def spiPageProgramCount (tr : List SpiEv) : Nat :=
  tr.count (.xfer 0x02)

/-- `spiReadData` (main.cpp:444-504): fast-read 0x0B, 3 address bytes,
one dummy byte, then `n` byte reads (dummy 0x00 transfers). -/
def spiReadData (address n : Nat) : List SpiEv :=
  [.csLow, .xfer 0x0B, .xfer (address / 65536 % 256), .xfer (address / 256 % 256),
   .xfer (address % 256), .xfer 0x00]
    ++ List.replicate n (.xfer 0x00) ++ [.csHigh]

/-- `spiReadID` (main.cpp:282-301): JEDEC read-ID 0x9F plus three byte reads. -/
def spiReadIDTrace : List SpiEv :=
  [.csLow, .xfer 0x9F, .xfer 0x00, .xfer 0x00, .xfer 0x00, .csHigh]

/-- `spiReadStatus` (main.cpp:1064-1087): READ_STATUS plus one byte read. -/
def spiReadStatusTrace : List SpiEv :=
  [.csLow, .xfer 0x05, .xfer 0x00, .csHigh]

/-- `spiErase` (main.cpp:926-967): write-enable pulse, then sector
(0x20, 4 KiB), block (0xD8, 64 KiB) or chip (0xC7, no address) erase,
then `while (waitForSpiReady())`.  The source poll loop is unbounded; the
trace is parametrised by `busyPolls`, the number of polls that still read
the WIP bit set before the device reports ready, giving `busyPolls + 1`
status transactions in total. -/
def spiErase (option : Char) (address : Nat) (busyPolls : Nat) : List SpiEv :=
  [.csLow, .xfer 0x06, .csHigh, .csLow]
    ++ (if option = '1' then
          [.xfer 0x20, .xfer (address / 65536 % 256), .xfer (address / 256 % 256),
           .xfer (address % 256)]
        else if option = '2' then
          [.xfer 0xD8, .xfer (address / 65536 % 256), .xfer (address / 256 % 256),
           .xfer (address % 256)]
        else if option = '3' then
          [.xfer 0xC7]
        else [])
    ++ [.csHigh]
    ++ (List.range (busyPolls + 1)).flatMap (fun _ => waitForSpiReadyTrace)

/-! ## NAND driver (`nandReadID`, `nandReadData`, `nandWriteData`,
`nandErase`, `nandReadStatus`, `waitForNandReady`) -/

/-- One event on the parallel NAND bus: chip-enable edges, a byte strobed
with command latch high (`cmd`), with address latch high (`addr`), a plain
data byte (`dat`), a read-enable pulse sampling one byte (`readByte`), and
a `waitForNandReady` busy-wait on the ready/busy line. -/
inductive NandEv where
  | select : NandEv
  | deselect : NandEv
  | cmd : Nat → NandEv
  | addr : Nat → NandEv
  | dat : Nat → NandEv
  | readByte : NandEv
  | waitReady : NandEv
deriving DecidableEq

/-- The five address-phase bytes of the NAND read/program sequences
(main.cpp:421-426 and 659-664): column low, column high, page low, page
high, page highest.  `page` and `offset` are 16-bit `unsigned int` values;
`(x >> 8) & 0xFF` is `x / 256 % 256` and `(x >> 16) & 0xFF` of a stored
16-bit value is `x / 65536 % 256` (always 0). -/
def nandAddrBytes (page offset : Nat) : List Nat :=
  [offset % 256, offset / 256 % 256, page % 256, page / 256 % 256, page / 65536 % 256]

/-- Outcome of `nandWriteData`: either the boundary check fired (with the
bus events emitted before returning) or the program sequence was driven. -/
inductive NandWriteResp where
  | boundaryViolation : List NandEv → NandWriteResp
  | attempted : List NandEv → NandWriteResp
deriving DecidableEq

/-- `nandWriteData` (main.cpp:638-696).  `page = address / 512` and
`offset = address % 512` in 16-bit `unsigned int` arithmetic; if
`offset + numBytes > 512` (16-bit sum) it prints the boundary error and
returns before touching any control line.  Otherwise it selects the chip,
sends PROGRAM 0x80, 5 address bytes, the data, PROGRAM_CONFIRM 0x10,
waits for ready, reads the status byte (command 0x70) and deselects. -/
def nandWriteData (address : Nat) (data : List Nat) : NandWriteResp :=
  let pageSize := 512
  let page := address / pageSize % 65536
  let offset := address % pageSize
  if (offset + data.length) % 65536 > pageSize then
    .boundaryViolation []
  else
    .attempted ([.select, .cmd 0x80] ++ (nandAddrBytes page offset).map .addr
      ++ data.map .dat ++ [.cmd 0x10, .waitReady, .cmd 0x70, .readByte, .deselect])

/-- The bus events a `nandWriteData` call emits, in either outcome. -/
def nandWriteBus : NandWriteResp → List NandEv
  | .boundaryViolation bus => bus
  | .attempted bus => bus

/-- `nandReadData` (main.cpp:404-442): READ 0x00, 5 address bytes,
READ_CONFIRM 0x30, wait for ready, then `n` sequential byte reads. -/
def nandReadData (address n : Nat) : List NandEv :=
  let page := address / 512 % 65536
  let offset := address % 512
  [.select, .cmd 0x00] ++ (nandAddrBytes page offset).map .addr
    ++ [.cmd 0x30, .waitReady] ++ List.replicate n .readByte ++ [.deselect]

/-- `nandErase` (main.cpp:878-924): ERASE 0x60; for options '1' and '2'
three block-address bytes of `block = address / 16384` (stored in a 16-bit
`unsigned int`, so truncated `% 65536`, and its `(block >> 16) & 0xFF`
byte is always 0); then ERASE_CONFIRM 0xD0, wait for ready, status read,
deselect.  Option '3' (chip) skips the address phase entirely. -/
def nandErase (option : Char) (address : Nat) : List NandEv :=
  [.select, .cmd 0x60]
    ++ (if option = '1' ∨ option = '2' then
          let blockSize := 16384
          let block := address / blockSize % 65536
          [.addr (block % 256), .addr (block / 256 % 256), .addr (block / 65536 % 256)]
        else [])
    ++ [.cmd 0xD0, .waitReady, .cmd 0x70, .readByte, .deselect]

/-- `nandReadID` (main.cpp:248-280): READ_ID 0x90, address byte 0x00,
five sequential byte reads. -/
def nandReadIDTrace : List NandEv :=
  [.select, .cmd 0x90, .addr 0x00] ++ List.replicate 5 .readByte ++ [.deselect]

/-- `nandReadStatus` (main.cpp:1035-1062): READ_STATUS 0x70 plus one byte
read. -/
def nandReadStatusTrace : List NandEv :=
  [.select, .cmd 0x70, .readByte, .deselect]

/-- The address-phase bytes of a NAND trace, in order. -/
def nandAddrPhase (tr : List NandEv) : List Nat :=
  tr.filterMap (fun e => match e with | .addr b => some b | _ => none)

/-- The block index encoded by the three address-phase bytes of a NAND
erase trace (low, high, highest). -/
def nandBlockIndexOf (tr : List NandEv) : Nat :=
  match nandAddrPhase tr with
  | [b0, b1, b2] => b0 + 256 * b1 + 65536 * b2
  | _ => 0

/-! ## Simulated NAND backend

The repository contains no device simulator; the spec (section 8) states
its write/read round-trip property "against a simulated NAND backend", so
the device side below is modelled from the spec while the driver side
(the traces consumed by the device) is the source embedding above. -/

/-- Byte store update: the flat memory with `data` written at `base`. -/
def storeBytes (mem : Nat → Nat) (base : Nat) (data : List Nat) : Nat → Nat :=
  fun i => if base ≤ i ∧ i < base + data.length then data.getD (i - base) 0 else mem i

/-- Modelled from the spec: a small-page NAND device decodes the five
address-phase bytes as a 2-byte column (low, high) and a 3-byte row
(low, mid, high) and addresses the byte `row * 512 + column` of its flat
array (spec section 4.1, 512-byte pages). -/
def nandDecodeAddr (bytes : List Nat) : Nat :=
  match bytes with
  | [c0, c1, r0, r1, r2] => (r0 + 256 * r1 + 65536 * r2) * 512 + (c0 + 256 * c1)
  | _ => 0

/-- Output mode of the simulated device: what a read-enable pulse returns. -/
inductive NandMode where
  | idle : NandMode
  | dataOut : NandMode
  | statusOut : NandMode
deriving DecidableEq

/-- Modelled from the spec: state of the simulated NAND device.  `mem` is
the flat byte array, `status` the byte returned by READ_STATUS (bit 0 is
the program/erase fail bit, spec section 4.1), `addrBuf`/`dataBuf` the
latched address and data phases, `readPtr` the sequential output pointer. -/
structure NandDev where
  mem : Nat → Nat
  status : Nat
  addrBuf : List Nat
  dataBuf : List Nat
  readPtr : Nat
  mode : NandMode

/-- Modelled from the spec: how the simulated NAND device reacts to one bus
event, returning the new device state and the byte produced for a
read-enable pulse (if any).  PROGRAM 0x80 opens a program sequence, READ
0x00 opens an address phase, READ_CONFIRM 0x30 latches the decoded address
for sequential output, PROGRAM_CONFIRM 0x10 commits `dataBuf` at the
decoded address, READ_STATUS 0x70 switches the output to the status byte. -/
def nandDevStep (d : NandDev) (e : NandEv) : NandDev × Option Nat :=
  match e with
  | .select => (d, none)
  | .deselect => (d, none)
  | .waitReady => (d, none)
  | .cmd b =>
    if b = 0x80 then ({ d with mode := .idle, addrBuf := [], dataBuf := [] }, none)
    else if b = 0x10 then
      ({ d with mem := storeBytes d.mem (nandDecodeAddr d.addrBuf) d.dataBuf,
                mode := .idle }, none)
    else if b = 0x00 then ({ d with addrBuf := [] }, none)
    else if b = 0x30 then
      ({ d with readPtr := nandDecodeAddr d.addrBuf, mode := .dataOut }, none)
    else if b = 0x70 then ({ d with mode := .statusOut }, none)
    else (d, none)
  | .addr b => ({ d with addrBuf := d.addrBuf ++ [b] }, none)
  | .dat b => ({ d with dataBuf := d.dataBuf ++ [b] }, none)
  | .readByte =>
    match d.mode with
    | .statusOut => (d, some d.status)
    | _ => ({ d with readPtr := d.readPtr + 1 }, some (d.mem d.readPtr))

/-- Run the simulated device over a bus trace, collecting the bytes it
returned for the read-enable pulses. -/
def nandDevRun : NandDev → List NandEv → NandDev × List Nat
  | d, [] => (d, [])
  | d, e :: rest =>
    match nandDevStep d e with
    | (d1, out) =>
      match nandDevRun d1 rest with
      | (d2, outs) => (d2, out.toList ++ outs)

/-- `writeMemory` on NAND against the simulated backend: drive the
`nandWriteData` trace into the device.  Result `none` is the
BoundaryViolation (nothing reaches the bus); otherwise `some ok` where
`ok` is the source's success check `(status & 0x01) == 0` applied to the
status byte the driver read back (main.cpp:691-695). -/
def nandWriteMemorySim (d : NandDev) (address : Nat) (data : List Nat) :
    NandDev × Option Bool :=
  match nandWriteData address data with
  | .boundaryViolation _ => (d, none)
  | .attempted bus =>
    match nandDevRun d bus with
    | (d1, outs) => (d1, some (outs.headD 0 % 2 == 0))

/-- `readMemory` on NAND against the simulated backend: the bytes the
device returns for the `nandReadData` trace. -/
def nandReadMemorySim (d : NandDev) (address n : Nat) : List Nat :=
  (nandDevRun d (nandReadData address n)).2

/-- A concrete simulated device: zeroed memory, status byte 0xC0
(ready, fail bit clear), idle. -/
def nandDev0 : NandDev :=
  ⟨fun _ => 0, 0xC0, [], [], 0, .idle⟩

/-! ## Ready/busy timeout (`waitForNandReady`) -/

/-- Result of `waitForNandReady` (main.cpp:1170-1180): the ready/busy line
went high, or the 1000 ms bound expired and the soft "NAND Flash timeout"
warning was printed (the function then simply returns, so callers
proceed). -/
inductive NandReadyResult where
  | ready : NandReadyResult
  | timeoutWarning : NandReadyResult
deriving DecidableEq

/-- The poll loop of `waitForNandReady`, against a ready/busy line `rb`
given as a function of elapsed milliseconds.  The clock is modelled as
advancing one millisecond per poll iteration (`millis() - startTime` is
the `elapsed` argument, here `1002 - fuel`); the loop body first samples
the line and, while it is low, returns with the warning as soon as
`elapsed > 1000`.  The structural `fuel` starts at 1002, which the
`elapsed > 1000` guard provably never exhausts. -/
def waitForNandReadyAux (rb : Nat → Bool) : Nat → NandReadyResult × Nat
  | 0 => if rb 1002 then (.ready, 1002) else (.timeoutWarning, 1002)
  | f + 1 =>
    let elapsed := 1002 - (f + 1)
    if rb elapsed then (.ready, elapsed)
    else if elapsed > 1000 then (.timeoutWarning, elapsed)
    else waitForNandReadyAux rb f

/-- `waitForNandReady` (main.cpp:1170-1180): poll from elapsed time 0,
returning the result and the elapsed milliseconds at return. -/
def waitForNandReady (rb : Nat → Bool) : NandReadyResult × Nat :=
  waitForNandReadyAux rb 1002

/-! ## I2C EEPROM driver (`i2cDetect`, `i2cReadData`, `i2cWriteData`,
`i2cErase`, `i2cReadStatus`) -/

/-- One transaction on the two-wire bus: an empty probe
(`beginTransmission` + `endTransmission` with no payload), a write
transaction carrying the listed bytes, or a read request of `n` bytes.
Each carries the 7-bit device address it targets. -/
inductive I2cEv where
  | probe : Nat → I2cEv
  | write : Nat → List Nat → I2cEv
  | request : Nat → Nat → I2cEv
deriving DecidableEq

/-- The device address an I2C transaction targets. -/
def i2cEvAddr : I2cEv → Nat
  | .probe a => a
  | .write a _ => a
  | .request a _ => a

/-- The address phase of one chunk (main.cpp:532-536 and 782-785): a
2-byte MSB-first phase when the call's original `address` exceeded 0xFF,
else a single byte; `currentAddr` is the 32-bit `unsigned long` value. -/
def i2cAddrPhase (use16bitAddr : Bool) (currentAddr : Nat) : List Nat :=
  (if use16bitAddr then [currentAddr / 256 % 256] else []) ++ [currentAddr % 256]

/-- The chunking loop of `i2cWriteData` (main.cpp:770-799): each chunk
starts at `currentAddr = address + bytesWritten` (32-bit), has
`pageOffset = currentAddr % 8` and carries
`min (8 - pageOffset) remaining` bytes. -/
def i2cWriteChunks (address : Nat) (data : List Nat) : List (Nat × List Nat) :=
  match data with
  | [] => []
  | b :: rest =>
    let currentAddr := address % 4294967296
    let pageOffset := currentAddr % 8
    let bytesToWrite := min (8 - pageOffset) (b :: rest).length
    (currentAddr, (b :: rest).take bytesToWrite) ::
      i2cWriteChunks (address + bytesToWrite) ((b :: rest).drop bytesToWrite)
termination_by data.length
decreasing_by
  simp only [List.length_drop]
  have h1 : address % 4294967296 % 8 < 8 := Nat.mod_lt _ (by norm_num)
  simp only [List.length_cons]
  omega

/-- `i2cWriteData` (main.cpp:749-802): presence probe first (abort with no
further traffic if the device does not acknowledge), then one write
transaction per chunk, each carrying the address phase plus the chunk's
data bytes.  The 5 ms settle delay between chunks has no bus footprint. -/
def i2cWriteData (devAddr : Nat) (present : Bool) (address : Nat) (data : List Nat) :
    List I2cEv :=
  if present then
    .probe devAddr ::
      (i2cWriteChunks address data).map
        (fun c => .write devAddr (i2cAddrPhase (decide (address > 0xFF)) c.1 ++ c.2))
  else
    [.probe devAddr]

/-- The chunking loop of `i2cReadData` (main.cpp:525-540): chunks of up to
16 bytes, each `(currentAddr, bytesToRead)` with the address in 32-bit
arithmetic. -/
def i2cReadChunks (address n : Nat) : List (Nat × Nat) :=
  if n = 0 then []
  else
    let c := min 16 n
    (address % 4294967296, c) :: i2cReadChunks (address + c) (n - c)
termination_by n
decreasing_by omega

/-- `i2cReadData` (main.cpp:506-585): presence probe, then per chunk an
address-phase-only write (sets the device pointer) followed by a read
request of the chunk length. -/
def i2cReadData (devAddr : Nat) (present : Bool) (address n : Nat) : List I2cEv :=
  if present then
    .probe devAddr ::
      (i2cReadChunks address n).flatMap
        (fun c => [.write devAddr (i2cAddrPhase (decide (address > 0xFF)) c.1),
                   .request devAddr c.2])
  else
    [.probe devAddr]

/-- `i2cReadStatus` (main.cpp:1089-1109): presence probe; if acknowledged,
a one-byte write of address 0 to test readiness. -/
def i2cReadStatusTrace (devAddr : Nat) (present : Bool) : List I2cEv :=
  if present then [.probe devAddr, .write devAddr [0x00]]
  else [.probe devAddr]

/-- `i2cErase` (main.cpp:969-1008): chip scope fills a fixed 32 KiB window
from address 0, otherwise 256 B (sector) or 4 KiB (block) from `address`,
all through `i2cWriteData` calls of 8 bytes of 0xFF stepping by 8. -/
def i2cErase (devAddr : Nat) (present : Bool) (option : Char) (address : Nat) :
    List I2cEv :=
  if option = '3' then
    (List.range 4096).flatMap
      (fun k => i2cWriteData devAddr present (8 * k) (List.replicate 8 0xFF))
  else
    let eraseSize := if option = '1' then 256 else 4096
    (List.range (eraseSize / 8)).flatMap
      (fun k => i2cWriteData devAddr present (address + 8 * k) (List.replicate 8 0xFF))

/-- `i2cDetect` (main.cpp:337-363): probe every 7-bit address from 0x08 up
to (excluding) 0x78. -/
def i2cDetectTrace : List I2cEv :=
  (List.range' 0x08 0x70).map .probe

/-! ## Session level (`currentMemoryType`, `i2cAddress`, command handlers) -/

/-- `MemoryType` (main.cpp:56-61). -/
inductive MemoryType where
  | unknown : MemoryType
  | nandFlash : MemoryType
  | spiFlash : MemoryType
  | i2cEeprom : MemoryType
deriving DecidableEq

/-- The global session state (main.cpp:64-65): the selected technology and
the targeted EEPROM bus address. -/
structure ProgState where
  currentMemoryType : MemoryType
  i2cAddress : Nat
deriving DecidableEq

/-- The state at startup: no technology selected, default EEPROM address
0x50 (main.cpp:64-65). -/
def initialState : ProgState :=
  ⟨.unknown, 0x50⟩

/-- A bus event of any of the three technologies. -/
inductive BusEv where
  | nand : NandEv → BusEv
  | spi : SpiEv → BusEv
  | i2c : I2cEv → BusEv
deriving DecidableEq

/-- `readDeviceID` (main.cpp:225-246): `none` is the "Please select memory
type first!" refusal (spec: NoTechnologySelected), issued before any bus
activity; otherwise the active driver's identity trace. -/
def readDeviceID (s : ProgState) : Option (List BusEv) :=
  match s.currentMemoryType with
  | .unknown => none
  | .nandFlash => some (nandReadIDTrace.map .nand)
  | .spiFlash => some (spiReadIDTrace.map .spi)
  | .i2cEeprom => some (i2cDetectTrace.map .i2c)

/-- `readData` (main.cpp:367-402), with the interactive prompts replaced by
the parsed `address` and `n`; the handler checks the technology before
anything else and caps `n` at 256 bytes. -/
def readData (s : ProgState) (present : Bool) (address n : Nat) :
    Option (List BusEv) :=
  match s.currentMemoryType with
  | .unknown => none
  | .nandFlash => some ((nandReadData address (min n 256)).map .nand)
  | .spiFlash => some ((spiReadData address (min n 256)).map .spi)
  | .i2cEeprom => some ((i2cReadData s.i2cAddress present address (min n 256)).map .i2c)

/-- `writeData` (main.cpp:587-636), with the interactive prompts replaced
by the parsed `address` and `data`; the parser stores at most 32 bytes.
The technology check comes before anything else. -/
def writeData (s : ProgState) (present : Bool) (address : Nat) (data : List Nat) :
    Option (List BusEv) :=
  match s.currentMemoryType with
  | .unknown => none
  | .nandFlash => some ((nandWriteBus (nandWriteData address (data.take 32))).map .nand)
  | .spiFlash => some ((spiWriteDataTrace address (data.take 32)).map .spi)
  | .i2cEeprom =>
    some ((i2cWriteData s.i2cAddress present address (data.take 32)).map .i2c)

/-- `eraseMemory` (main.cpp:806-876), with the interactive option/address
prompts and the chip-erase confirmation replaced by the parsed `option`
and `address`; the technology check (main.cpp:807) comes first.
`busyPolls` feeds the SPI erase poll loop (see `spiErase`). -/
def eraseMemory (s : ProgState) (present : Bool) (busyPolls : Nat)
    (option : Char) (address : Nat) : Option (List BusEv) :=
  match s.currentMemoryType with
  | .unknown => none
  | .nandFlash => some ((nandErase option address).map .nand)
  | .spiFlash => some ((spiErase option address busyPolls).map .spi)
  | .i2cEeprom => some ((i2cErase s.i2cAddress present option address).map .i2c)

/-- `readStatus` (main.cpp:1012-1033): technology check, then the active
driver's status-read trace. -/
def readStatus (s : ProgState) (present : Bool) : Option (List BusEv) :=
  match s.currentMemoryType with
  | .unknown => none
  | .nandFlash => some (nandReadStatusTrace.map .nand)
  | .spiFlash => some (spiReadStatusTrace.map .spi)
  | .i2cEeprom => some ((i2cReadStatusTrace s.i2cAddress present).map .i2c)

/-- `setI2CAddress` (main.cpp:1192-1211), with the prompt replaced by the
parsed value; `byte newAddress = strtol(...)` truncates to 8 bits.  The
handler performs no technology check: it validates only the range
[0x08, 0x77] and either installs the new address (returning `true`) or
leaves the state unchanged (returning `false`). -/
def setI2CAddress (s : ProgState) (input : Nat) : ProgState × Bool :=
  let newAddress := input % 256
  if 0x08 ≤ newAddress ∧ newAddress ≤ 0x77 then
    ({ s with i2cAddress := newAddress }, true)
  else
    (s, false)

/-! ## Helper lemmas -/

/-- Reducing a 32-bit value does not change the three address bytes a
page-program transaction places on the bus (the bus only sees the low
24 bits, and `2^24 ∣ 2^32`). -/
theorem spiProgramTxn_mod32 (x : Nat) (d : List Nat) :
    spiProgramTxn (x % 4294967296) d = spiProgramTxn x d := by
  have h1 : x % 4294967296 / 65536 % 256 = x / 65536 % 256 := by omega
  have h2 : x % 4294967296 / 256 % 256 = x / 256 % 256 := by omega
  have h3 : x % 4294967296 % 256 = x % 256 := by omega
  simp [spiProgramTxn, h1, h2, h3]

/-! ## Claim C1 -/

/-- Claim C1: a SerialFlash write whose span crosses a 256-byte page
boundary (`offset = address % 256`, `offset + len(data) > 256`) is split
by `spiWriteData` into exactly two page-program transactions, the first
covering `256 - offset` bytes at `address`, the second the remaining
`len(data) - (256 - offset)` bytes at `address + (256 - offset)`, and the
two data parts concatenate back to the original payload.  The bound
`data.length ≤ 32` is the payload cap of the only caller, `writeData`
(32-byte parse buffer, main.cpp:608-616); it keeps the 16-bit boundary
comparison exact. -/
theorem spiWriteData_boundary_split (address : Nat) (data : List Nat)
    (hlen : data.length ≤ 32)
    (hcross : address % 256 + data.length > 256) :
    spiWriteData address data =
      [spiProgramTxn address (data.take (256 - address % 256)),
       spiProgramTxn (address + (256 - address % 256)) (data.drop (256 - address % 256))] ∧
    (data.take (256 - address % 256)).length = 256 - address % 256 ∧
    (data.drop (256 - address % 256)).length = data.length - (256 - address % 256) ∧
    data.take (256 - address % 256) ++ data.drop (256 - address % 256) = data := by
  have hoff : address % 256 < 256 := Nat.mod_lt _ (by norm_num)
  have hc : (address % 256 + data.length) % 65536 > 256 := by omega
  refine ⟨?_, ?_, ?_, List.take_append_drop _ _⟩
  · simp only [spiWriteData]
    rw [if_pos hc, spiProgramTxn_mod32]
  · rw [List.length_take]
    omega
  · rw [List.length_drop]

/-- Witness for C1 at `address = 250`, ten data bytes: the split is
`(250, 6 bytes)` then `(256, 4 bytes)`. -/
theorem spiWriteData_boundary_split_witness :
    spiWriteData 250 [65, 66, 67, 68, 69, 70, 71, 72, 73, 74] =
      [spiProgramTxn 250 ([65, 66, 67, 68, 69, 70, 71, 72, 73, 74].take (256 - 250 % 256)),
       spiProgramTxn (250 + (256 - 250 % 256))
         ([65, 66, 67, 68, 69, 70, 71, 72, 73, 74].drop (256 - 250 % 256))] ∧
    (([65, 66, 67, 68, 69, 70, 71, 72, 73, 74] : List Nat).take (256 - 250 % 256)).length
      = 256 - 250 % 256 ∧
    (([65, 66, 67, 68, 69, 70, 71, 72, 73, 74] : List Nat).drop (256 - 250 % 256)).length
      = ([65, 66, 67, 68, 69, 70, 71, 72, 73, 74] : List Nat).length - (256 - 250 % 256) ∧
    ([65, 66, 67, 68, 69, 70, 71, 72, 73, 74] : List Nat).take (256 - 250 % 256)
      ++ [65, 66, 67, 68, 69, 70, 71, 72, 73, 74].drop (256 - 250 % 256)
      = [65, 66, 67, 68, 69, 70, 71, 72, 73, 74] :=
  spiWriteData_boundary_split 250 [65, 66, 67, 68, 69, 70, 71, 72, 73, 74]
    (by decide) (by decide)

/-! ## Claim C2 -/

/-- Claim C2: a NAND write with `offset = address % 512` and
`offset + len(data) > 512` fails immediately with the BoundaryViolation,
and the bus trace emitted before the failure is empty: no chip select, no
command, no data byte.  As in C1, `data.length ≤ 32` is the cap of the
only caller `writeData`, keeping the 16-bit comparison exact. -/
theorem nandWriteData_boundary_rejected (address : Nat) (data : List Nat)
    (hlen : data.length ≤ 32)
    (hcross : address % 512 + data.length > 512) :
    nandWriteData address data = .boundaryViolation [] ∧
    nandWriteBus (nandWriteData address data) = [] := by
  have hoff : address % 512 < 512 := Nat.mod_lt _ (by norm_num)
  have hc : (address % 512 + data.length) % 65536 > 512 := by omega
  have h1 : nandWriteData address data = .boundaryViolation [] := by
    simp only [nandWriteData]
    rw [if_pos hc]
  exact ⟨h1, by rw [h1]; rfl⟩

/-- Witness for C2 at `address = 500`, 20 data bytes
(`500 % 512 + 20 = 520 > 512`). -/
theorem nandWriteData_boundary_rejected_witness :
    nandWriteData 500 (List.replicate 20 0xAB) = .boundaryViolation [] ∧
    nandWriteBus (nandWriteData 500 (List.replicate 20 0xAB)) = [] :=
  nandWriteData_boundary_rejected 500 (List.replicate 20 0xAB) (by decide) (by decide)

/-! ## Claim C9 -/

/-- Counterexample to C9 as stated: at address `2^30 = 0x40000000` the true
block index is `2^30 / 16384 = 65536`, but `unsigned int block` truncates
it to 16 bits, so `nandErase` emits address bytes `[0, 0, 0]` — the
encoded block index is 0, not 65536, and the emitted bytes differ from the
low/high/highest bytes of `address / 16384`. -/
theorem nandErase_block_index_truncated :
    nandBlockIndexOf (nandErase '2' 1073741824) = 0 ∧
    1073741824 / 16384 = 65536 ∧
    nandAddrPhase (nandErase '2' 1073741824) ≠
      [1073741824 / 16384 % 256, 1073741824 / 16384 / 256 % 256,
       1073741824 / 16384 / 65536 % 256] := by
  refine ⟨by decide, by decide, by decide⟩

/-- Claim C9 (amended): NAND block erase computes
`block = (address / 16384) % 2^16` (the 16-bit `unsigned int` truncation)
and emits its three bytes (low, high, and an always-zero highest byte) as
the address phase between the erase command 0x60 and the erase-confirm
0xD0; whenever `address < 2^30` the emitted index equals `address / 16384`
exactly, and in particular address 20000 yields block index 1. -/
theorem nandErase_block_trace (address : Nat) :
    nandErase '2' address =
      [.select, .cmd 0x60,
       .addr (address / 16384 % 65536 % 256),
       .addr (address / 16384 % 65536 / 256 % 256),
       .addr (address / 16384 % 65536 / 65536 % 256),
       .cmd 0xD0, .waitReady, .cmd 0x70, .readByte, .deselect] ∧
    (address < 1073741824 →
      nandBlockIndexOf (nandErase '2' address) = address / 16384) := by
  have htr : nandErase '2' address =
      [.select, .cmd 0x60,
       .addr (address / 16384 % 65536 % 256),
       .addr (address / 16384 % 65536 / 256 % 256),
       .addr (address / 16384 % 65536 / 65536 % 256),
       .cmd 0xD0, .waitReady, .cmd 0x70, .readByte, .deselect] := by
    simp [nandErase]
  refine ⟨htr, fun hlt => ?_⟩
  rw [htr]
  simp only [nandBlockIndexOf, nandAddrPhase, List.filterMap]
  omega

/-- Witness for C9 (amended) at address 20000: the address phase carries
block index `20000 / 16384 = 1`. -/
theorem nandErase_block_trace_witness :
    nandBlockIndexOf (nandErase '2' 20000) = 20000 / 16384 ∧ 20000 / 16384 = 1 :=
  ⟨(nandErase_block_trace 20000).2 (by decide), by decide⟩

/-! ## Claim C10 -/

/-- Counterexample to C10 as stated: Sector and Block scopes do perform the
same bus sequence, but the block index they issue is not `address / 16384`:
at `2^30` the emitted index is 0, not `2^30 / 16384 = 65536` (16-bit
truncation of `unsigned int block`). -/
theorem nandErase_sector_issues_truncated_index :
    nandErase '1' 1073741824 = nandErase '2' 1073741824 ∧
    nandBlockIndexOf (nandErase '1' 1073741824) ≠ 1073741824 / 16384 := by
  refine ⟨by decide, by decide⟩

/-- Claim C10 (amended): on NAND, `eraseMemory` with Sector scope ('1') and
with Block scope ('2') at the same address perform the identical bus
sequence — the Sector scope is not rejected and gets no sector-granular
behaviour — issuing a block erase of the truncated index
`(address / 16384) % 2^16`; Chip scope ('3') emits the erase and
erase-confirm commands with no address-phase bytes at all. -/
theorem nandErase_sector_eq_block (address : Nat) :
    nandErase '1' address = nandErase '2' address ∧
    nandErase '3' address =
      [.select, .cmd 0x60, .cmd 0xD0, .waitReady, .cmd 0x70, .readByte, .deselect] ∧
    nandAddrPhase (nandErase '3' address) = [] ∧
    nandAddrPhase (nandErase '1' address) =
      [address / 16384 % 65536 % 256, address / 16384 % 65536 / 256 % 256,
       address / 16384 % 65536 / 65536 % 256] := by
  have h1 : nandErase '1' address = nandErase '2' address := by
    simp [nandErase]
  have h3 : nandErase '3' address =
      [.select, .cmd 0x60, .cmd 0xD0, .waitReady, .cmd 0x70, .readByte, .deselect] := by
    simp [nandErase]
  refine ⟨h1, h3, by rw [h3]; rfl, ?_⟩
  have h2 : nandErase '1' address =
      [.select, .cmd 0x60,
       .addr (address / 16384 % 65536 % 256),
       .addr (address / 16384 % 65536 / 256 % 256),
       .addr (address / 16384 % 65536 / 65536 % 256),
       .cmd 0xD0, .waitReady, .cmd 0x70, .readByte, .deselect] := by
    simp [nandErase]
  rw [h2]
  rfl

/-! ## Claim C7 -/

/-- Claim C7 is refuted by the code: `spiWritePage` calls
`waitForSpiReady()` exactly once and discards its Boolean result
(main.cpp:744) — the `while` loop that `spiErase` wraps around the same
function is missing — so the driver does not poll the write-in-progress
bit until it clears.  Evidence at a concrete split write (address 250, ten
bytes, neither 0x02 nor 0x05 among them): the whole bus trace contains
exactly two READ_STATUS commands (one single poll per page program) and
two PAGE_PROGRAM commands, and because `spiWriteDataTrace` takes no device
input at all, this trace — including the start of the second sub-write and
the final return — is the same even when the device reports
write-in-progress forever. -/
theorem spiWritePage_single_status_poll :
    spiStatusReadCount (spiWriteDataTrace 250 [65, 66, 67, 68, 69, 70, 71, 72, 73, 74]) = 2 ∧
    spiPageProgramCount (spiWriteDataTrace 250 [65, 66, 67, 68, 69, 70, 71, 72, 73, 74]) = 2 ∧
    (spiWriteData 250 [65, 66, 67, 68, 69, 70, 71, 72, 73, 74]).length = 2 := by
  refine ⟨by decide, by decide, by decide⟩

/-! ## Claim C8 -/

/-- The poll loop of `waitForNandReady` returns the timeout warning at
elapsed time 1001 ms when the ready/busy line stays low through the
deadline. -/
theorem waitForNandReadyAux_timeout (rb : Nat → Bool)
    (h : ∀ t, t ≤ 1001 → rb t = false) :
    ∀ f, 1 ≤ f → f ≤ 1002 → waitForNandReadyAux rb f = (.timeoutWarning, 1001) := by
  intro f
  induction f with
  | zero => omega
  | succ f ih =>
    intro _ h2
    have he : 1002 - (f + 1) ≤ 1001 := by omega
    by_cases hf : f = 0
    · subst hf
      simp only [waitForNandReadyAux]
      rw [h _ he]
      norm_num
    · have hng : ¬ (1002 - (f + 1) > 1000) := by omega
      simp only [waitForNandReadyAux]
      rw [h _ he]
      simp only [Bool.false_eq_true, if_false, if_neg hng]
      exact ih (by omega) (by omega)

/-- Claim C8: if the NAND ready/busy line never asserts within the 1000 ms
window, `waitForNandReady` stops polling and returns at elapsed time
1001 ms (the bound plus one clock tick of slack) carrying the soft
`timeoutWarning` result ("Warning: NAND Flash timeout") instead of
blocking indefinitely; the warning is non-fatal — the function simply
returns and its callers (e.g. `nandWriteData`, `nandErase`) continue with
the rest of their sequence, as their traces show. -/
theorem waitForNandReady_timeout (rb : Nat → Bool)
    (h : ∀ t, t ≤ 1001 → rb t = false) :
    waitForNandReady rb = (.timeoutWarning, 1001) :=
  waitForNandReadyAux_timeout rb h 1002 (by norm_num) (by norm_num)

/-- Witness for C8: a ready/busy line that never asserts. -/
theorem waitForNandReady_timeout_witness :
    waitForNandReady (fun _ => false) = (.timeoutWarning, 1001) :=
  waitForNandReady_timeout (fun _ => false) (fun _ _ => rfl)

/-! ## Claim C4 -/

/-- The chunking loop of `i2cWriteData` never lets a chunk cross an 8-byte
page: each emitted chunk satisfies `chunkStart % 8 + chunkLength ≤ 8`. -/
theorem i2cWriteChunks_bound_aux :
    ∀ (n : Nat) (address : Nat) (data : List Nat), data.length ≤ n →
      ∀ c ∈ i2cWriteChunks address data, c.1 % 8 + c.2.length ≤ 8 := by
  intro n
  induction n with
  | zero =>
    intro address data hlen c hc
    have hd : data = [] := List.eq_nil_of_length_eq_zero (by omega)
    subst hd
    simp [i2cWriteChunks] at hc
  | succ n ih =>
    intro address data hlen c hc
    match data with
    | [] => simp [i2cWriteChunks] at hc
    | b :: rest =>
      simp only [i2cWriteChunks, List.mem_cons] at hc
      have hpo : address % 4294967296 % 8 < 8 := Nat.mod_lt _ (by norm_num)
      rcases hc with rfl | hc
      · simp only [List.length_take, List.length_cons]
        omega
      · refine ih _ _ ?_ c hc
        simp only [List.length_drop, List.length_cons] at *
        omega

/-- Claim C4: for every EEPROM write call, every chunk the driver emits as
a single bus transaction (each element of `i2cWriteChunks`, sent as one
`Wire` transaction by `i2cWriteData`) satisfies
`chunkStartAddress % 8 + chunkLength ≤ 8`, for all starting addresses and
payload lengths — no chunk crosses an 8-byte page boundary. -/
theorem i2cWriteData_chunk_page_bound (address : Nat) (data : List Nat) :
    ∀ c ∈ i2cWriteChunks address data, c.1 % 8 + c.2.length ≤ 8 :=
  i2cWriteChunks_bound_aux data.length address data (Nat.le_refl _)

/-- Witness for C4: the single chunk of a 3-byte write at address 5
(page offset 5 plus length 3 is exactly 8). -/
theorem i2cWriteData_chunk_page_bound_witness :
    ((5 : Nat), ([1, 2, 3] : List Nat)).1 % 8
      + ((5 : Nat), ([1, 2, 3] : List Nat)).2.length ≤ 8 :=
  i2cWriteData_chunk_page_bound 5 [1, 2, 3] (5, [1, 2, 3]) (by
    simp [i2cWriteChunks])

/-! ## Claim C5 -/

/-- Counterexample to C5 as stated: `setI2CAddress` performs no technology
check (main.cpp:1192-1211 never reads `currentMemoryType`).  Called while
no technology is selected it still validates and installs the new bus
address — it applies instead of failing with NoTechnologySelected, and the
session state changes. -/
theorem setI2CAddress_no_technology_guard :
    setI2CAddress ⟨.unknown, 0x50⟩ 0x61 = (⟨.unknown, 0x61⟩, true) ∧
    (setI2CAddress ⟨.unknown, 0x50⟩ 0x61).1 ≠ (⟨.unknown, 0x50⟩ : ProgState) := by
  refine ⟨by decide, by decide⟩

/-- Claim C5 (amended): five of the six contract operations (readIdentity,
readMemory, writeMemory, eraseMemory, readStatusRegister) fail immediately
with NoTechnologySelected — result `none`, no bus activity, and the
handlers never touch the session state — when called while
`MemoryTechnology = None`; `setBusAddress`, however, performs no
technology check and still installs any in-range value. -/
theorem noTechnologySelected_guards (s : ProgState) (present : Bool)
    (busyPolls : Nat) (option : Char) (address n : Nat) (data : List Nat)
    (v : Nat) (h : s.currentMemoryType = .unknown) :
    readDeviceID s = none ∧
    readData s present address n = none ∧
    writeData s present address data = none ∧
    eraseMemory s present busyPolls option address = none ∧
    readStatus s present = none ∧
    (0x08 ≤ v → v ≤ 0x77 →
      setI2CAddress s v = ({ s with i2cAddress := v }, true)) := by
  obtain ⟨t, a⟩ := s
  simp only at h
  subst h
  refine ⟨rfl, rfl, rfl, rfl, rfl, fun h1 h2 => ?_⟩
  have hv : v % 256 = v := Nat.mod_eq_of_lt (by omega)
  simp only [setI2CAddress]
  rw [hv, if_pos ⟨h1, h2⟩]

/-- Witness for C5 (amended) in the startup state. -/
theorem noTechnologySelected_guards_witness :
    readDeviceID ⟨.unknown, 0x50⟩ = none ∧
    readData ⟨.unknown, 0x50⟩ true 0 16 = none ∧
    writeData ⟨.unknown, 0x50⟩ true 0 [1, 2] = none ∧
    eraseMemory ⟨.unknown, 0x50⟩ true 0 '1' 0 = none ∧
    readStatus ⟨.unknown, 0x50⟩ true = none ∧
    (0x08 ≤ 0x61 → 0x61 ≤ 0x77 →
      setI2CAddress ⟨.unknown, 0x50⟩ 0x61 = (⟨.unknown, 0x61⟩, true)) :=
  noTechnologySelected_guards ⟨.unknown, 0x50⟩ true 0 '1' 0 16 [1, 2] 0x61 rfl

/-! ## Claim C6 -/

/-- Claim C6: `setI2CAddress` rejects every 8-bit value outside
[0x08, 0x77], leaving the prior bus address unchanged, and accepts every
value inside the range; every transaction of the EEPROM memory operations
(`i2cWriteData`, `i2cReadData`, `i2cReadStatus`) targets the session's bus
address; the address stays in [0x08, 0x77] across `setI2CAddress` (the
only operation that writes it), starting from the default 0x50. -/
theorem setI2CAddress_range_invariant :
    (∀ (s : ProgState) (v : Nat), v < 256 → (v < 0x08 ∨ 0x77 < v) →
      setI2CAddress s v = (s, false)) ∧
    (∀ (s : ProgState) (v : Nat), 0x08 ≤ v → v ≤ 0x77 →
      setI2CAddress s v = ({ s with i2cAddress := v }, true)) ∧
    (∀ (dev : Nat) (present : Bool) (address : Nat) (data : List Nat) (e : I2cEv),
      e ∈ i2cWriteData dev present address data → i2cEvAddr e = dev) ∧
    (∀ (dev : Nat) (present : Bool) (address n : Nat) (e : I2cEv),
      e ∈ i2cReadData dev present address n → i2cEvAddr e = dev) ∧
    (∀ (dev : Nat) (present : Bool) (e : I2cEv),
      e ∈ i2cReadStatusTrace dev present → i2cEvAddr e = dev) ∧
    (∀ (s : ProgState) (v : Nat), 0x08 ≤ s.i2cAddress → s.i2cAddress ≤ 0x77 →
      0x08 ≤ (setI2CAddress s v).1.i2cAddress ∧
        (setI2CAddress s v).1.i2cAddress ≤ 0x77) ∧
    (0x08 ≤ initialState.i2cAddress ∧ initialState.i2cAddress ≤ 0x77) := by
  refine ⟨?_, ?_, ?_, ?_, ?_, ?_, by decide⟩
  · intro s v hlt hout
    have hv : v % 256 = v := Nat.mod_eq_of_lt hlt
    simp only [setI2CAddress]
    rw [hv, if_neg (by omega)]
  · intro s v h1 h2
    have hv : v % 256 = v := Nat.mod_eq_of_lt (by omega)
    simp only [setI2CAddress]
    rw [hv, if_pos ⟨h1, h2⟩]
  · intro dev present address data e he
    cases present
    · simp only [i2cWriteData, Bool.false_eq_true, if_false, List.mem_singleton] at he
      subst he
      rfl
    · simp only [i2cWriteData, if_true, List.mem_cons, List.mem_map] at he
      rcases he with rfl | ⟨c, _, rfl⟩
      · rfl
      · rfl
  · intro dev present address n e he
    cases present
    · simp only [i2cReadData, Bool.false_eq_true, if_false, List.mem_singleton] at he
      subst he
      rfl
    · simp only [i2cReadData, if_true, List.mem_cons, List.mem_flatMap] at he
      rcases he with rfl | ⟨c, _, hc⟩
      · rfl
      · rcases hc with rfl | rfl | h
        · rfl
        · rfl
        · simp at h
  · intro dev present e he
    cases present
    · simp only [i2cReadStatusTrace, Bool.false_eq_true, if_false,
        List.mem_singleton] at he
      subst he
      rfl
    · simp only [i2cReadStatusTrace, if_true, List.mem_cons,
        List.mem_singleton] at he
      rcases he with rfl | rfl | h
      · rfl
      · rfl
      · simp at h
  · intro s v h1 h2
    by_cases hc : 0x08 ≤ v % 256 ∧ v % 256 ≤ 0x77
    · simp only [setI2CAddress]
      rw [if_pos hc]
      exact hc
    · simp only [setI2CAddress]
      rw [if_neg hc]
      exact ⟨h1, h2⟩

/-- Witness for C6: `setBusAddress(0x61)` installs 0x61, a subsequent
`setBusAddress(0x05)` is rejected and 0x61 remains, and an EEPROM
transaction targets the session address. -/
theorem setI2CAddress_range_invariant_witness :
    setI2CAddress ⟨.i2cEeprom, 0x50⟩ 0x61 =
      ({ (⟨.i2cEeprom, 0x50⟩ : ProgState) with i2cAddress := 0x61 }, true) ∧
    setI2CAddress ⟨.i2cEeprom, 0x61⟩ 0x05 = (⟨.i2cEeprom, 0x61⟩, false) ∧
    i2cEvAddr (I2cEv.probe 0x61) = 0x61 :=
  ⟨setI2CAddress_range_invariant.2.1 ⟨.i2cEeprom, 0x50⟩ 0x61 (by decide) (by decide),
   setI2CAddress_range_invariant.1 ⟨.i2cEeprom, 0x61⟩ 0x05 (by decide) (by decide),
   setI2CAddress_range_invariant.2.2.2.2.1 0x61 true (I2cEv.probe 0x61)
     (by simp [i2cReadStatusTrace])⟩

/-! ## Claim C3: device-run lemmas -/

/-- Unfolding `nandDevRun` on a cons, in projection form. -/
theorem nandDevRun_cons (d : NandDev) (e : NandEv) (rest : List NandEv) :
    nandDevRun d (e :: rest) =
      ((nandDevRun (nandDevStep d e).1 rest).1,
       (nandDevStep d e).2.toList ++ (nandDevRun (nandDevStep d e).1 rest).2) := by
  rcases hs : nandDevStep d e with ⟨d1, out⟩
  rcases hr : nandDevRun d1 rest with ⟨d2, outs⟩
  simp [nandDevRun, hs, hr]

/-- `nandDevRun` distributes over trace concatenation. -/
theorem nandDevRun_append (es fs : List NandEv) :
    ∀ d : NandDev, nandDevRun d (es ++ fs) =
      ((nandDevRun (nandDevRun d es).1 fs).1,
       (nandDevRun d es).2 ++ (nandDevRun (nandDevRun d es).1 fs).2) := by
  induction es with
  | nil =>
    intro d
    simp [nandDevRun]
  | cons e es ih =>
    intro d
    rw [List.cons_append, nandDevRun_cons, nandDevRun_cons, ih]
    simp [List.append_assoc]

/-- A run of address-latch bytes appends them to the device's address
buffer and produces no output. -/
theorem nandDevRun_addrs (bs : List Nat) :
    ∀ (mem : Nat → Nat) (st : Nat) (ab db : List Nat) (rp : Nat) (mo : NandMode),
      nandDevRun ⟨mem, st, ab, db, rp, mo⟩ (bs.map NandEv.addr) =
        (⟨mem, st, ab ++ bs, db, rp, mo⟩, []) := by
  induction bs with
  | nil =>
    intro mem st ab db rp mo
    simp [nandDevRun]
  | cons b bs ih =>
    intro mem st ab db rp mo
    rw [List.map_cons, nandDevRun_cons]
    simp [nandDevStep, ih]

/-- A run of data bytes appends them to the device's data buffer and
produces no output. -/
theorem nandDevRun_dats (bs : List Nat) :
    ∀ (mem : Nat → Nat) (st : Nat) (ab db : List Nat) (rp : Nat) (mo : NandMode),
      nandDevRun ⟨mem, st, ab, db, rp, mo⟩ (bs.map NandEv.dat) =
        (⟨mem, st, ab, db ++ bs, rp, mo⟩, []) := by
  induction bs with
  | nil =>
    intro mem st ab db rp mo
    simp [nandDevRun]
  | cons b bs ih =>
    intro mem st ab db rp mo
    rw [List.map_cons, nandDevRun_cons]
    simp [nandDevStep, ih]

/-- A run of `n` read-enable pulses in data-output mode clocks out the `n`
bytes of memory from the read pointer on. -/
theorem nandDevRun_reads (n : Nat) :
    ∀ (mem : Nat → Nat) (st : Nat) (ab db : List Nat) (rp : Nat),
      nandDevRun ⟨mem, st, ab, db, rp, .dataOut⟩ (List.replicate n .readByte) =
        (⟨mem, st, ab, db, rp + n, .dataOut⟩,
         (List.range n).map (fun i => mem (rp + i))) := by
  induction n with
  | zero =>
    intro mem st ab db rp
    simp [nandDevRun]
  | succ n ih =>
    intro mem st ab db rp
    rw [List.replicate_succ, nandDevRun_cons]
    have hstep : nandDevStep ⟨mem, st, ab, db, rp, .dataOut⟩ .readByte =
        (⟨mem, st, ab, db, rp + 1, .dataOut⟩, some (mem rp)) := rfl
    rw [hstep]
    simp only [ih]
    have harith : ∀ i : Nat, rp + 1 + i = rp + (i + 1) := by omega
    rw [List.range_succ_eq_map]
    simp [List.map_map, Function.comp, harith, Nat.add_assoc, Nat.add_comm 1 n]

/-- The simulated device decodes the driver's five address bytes back to
the linear byte address `page * 512 + offset`. -/
theorem nandDecode_encode (page offset : Nat) (hp : page < 65536) (ho : offset < 512) :
    nandDecodeAddr (nandAddrBytes page offset) = page * 512 + offset := by
  simp only [nandDecodeAddr, nandAddrBytes]
  omega

/-- Reading back `data.length` bytes from `base` after `storeBytes` at
`base` returns `data`. -/
theorem storeBytes_readback (mem : Nat → Nat) (base : Nat) (data : List Nat) :
    (List.range data.length).map (fun i => storeBytes mem base data (base + i)) = data := by
  apply List.ext_getElem
  · simp
  · intro i h1 h2
    simp only [List.getElem_map, List.getElem_range, storeBytes]
    rw [if_pos ⟨Nat.le_add_right _ _, by omega⟩]
    have hib : base + i - base = i := by omega
    rw [hib]
    simp [List.getD_eq_getElem?_getD, List.getElem?_eq_getElem h2]

/-- Running the program trace of `nandWriteData` commits the data at the
decoded address and returns the status byte as the single output. -/
theorem nandDevRun_writeTrace (mem : Nat → Nat) (st : Nat) (ab db : List Nat)
    (rp : Nat) (mo : NandMode) (page offset : Nat) (data : List Nat) :
    nandDevRun ⟨mem, st, ab, db, rp, mo⟩
        ([.select, .cmd 0x80] ++ (nandAddrBytes page offset).map .addr
          ++ data.map .dat ++ [.cmd 0x10, .waitReady, .cmd 0x70, .readByte, .deselect])
      = (⟨storeBytes mem (nandDecodeAddr (nandAddrBytes page offset)) data, st,
          nandAddrBytes page offset, data, rp, .statusOut⟩,
         [st]) := by
  simp [nandDevRun_cons, nandDevRun_append, nandDevRun_addrs, nandDevRun_dats,
    nandDevStep, nandDevRun, nandAddrBytes]

/-- Running the trace of `nandReadData` outputs the `n` bytes of device
memory starting at the decoded address. -/
theorem nandDevRun_readTrace (mem : Nat → Nat) (st : Nat) (ab db : List Nat)
    (rp : Nat) (mo : NandMode) (page offset n : Nat) :
    (nandDevRun ⟨mem, st, ab, db, rp, mo⟩
        ([.select, .cmd 0x00] ++ (nandAddrBytes page offset).map .addr
          ++ [.cmd 0x30, .waitReady] ++ List.replicate n .readByte ++ [.deselect])).2
      = (List.range n).map
          (fun i => mem (nandDecodeAddr (nandAddrBytes page offset) + i)) := by
  simp [nandDevRun_cons, nandDevRun_append, nandDevRun_addrs, nandDevRun_reads,
    nandDevStep, nandDevRun, nandAddrBytes]

/-! ## Claim C3 -/

/-- Claim C3: for every address `a` and data with `a % 512 + len ≤ 512`,
against the simulated NAND backend, `writeMemory(a, data)` reports success
and a subsequent `readMemory(a, len)` returns exactly `data`, provided the
post-write status byte's fail bit (bit 0) is clear. -/
theorem nandWriteRead_roundtrip (d : NandDev) (address : Nat) (data : List Nat)
    (hb : address % 512 + data.length ≤ 512) (hs : d.status % 2 = 0) :
    (nandWriteMemorySim d address data).2 = some true ∧
    nandReadMemorySim (nandWriteMemorySim d address data).1 address data.length
      = data := by
  obtain ⟨mem, st, ab, db, rp, mo⟩ := d
  have hnc : ¬ ((address % 512 + data.length) % 65536 > 512) := by
    have ho : address % 512 < 512 := Nat.mod_lt _ (by norm_num)
    omega
  have hattempt : nandWriteData address data = .attempted
      ([.select, .cmd 0x80]
        ++ (nandAddrBytes (address / 512 % 65536) (address % 512)).map .addr
        ++ data.map .dat ++ [.cmd 0x10, .waitReady, .cmd 0x70, .readByte, .deselect]) := by
    simp only [nandWriteData]
    rw [if_neg hnc]
  have hw : nandWriteMemorySim ⟨mem, st, ab, db, rp, mo⟩ address data =
      (⟨storeBytes mem
          (nandDecodeAddr (nandAddrBytes (address / 512 % 65536) (address % 512))) data,
        st, nandAddrBytes (address / 512 % 65536) (address % 512), data, rp, .statusOut⟩,
       some (st % 2 == 0)) := by
    simp only [nandWriteMemorySim, hattempt, nandDevRun_writeTrace, List.headD]
  simp only at hs
  constructor
  · rw [hw]
    simp [hs]
  · rw [hw]
    simp only [nandReadMemorySim, nandReadData, nandDevRun_readTrace]
    exact storeBytes_readback mem _ data

/-- Witness for C3: writing `[1, 2, 3]` at address 100 into the concrete
device `nandDev0` (status 0xC0, fail bit clear) reads back `[1, 2, 3]`. -/
theorem nandWriteRead_roundtrip_witness :
    (nandWriteMemorySim nandDev0 100 [1, 2, 3]).2 = some true ∧
    nandReadMemorySim (nandWriteMemorySim nandDev0 100 [1, 2, 3]).1 100
      ([1, 2, 3] : List Nat).length = [1, 2, 3] :=
  nandWriteRead_roundtrip nandDev0 100 [1, 2, 3] (by decide) (by decide)
